import Mathlib

/-!
Verification of the `blanket_trait` proc-macro (repository `blanket_trait`,
file `src/lib.rs`) against its natural-language specification.

The development shallowly embeds the macro's data flow:

* a token model (`Tok`) mirroring `proc_macro::TokenTree`
  (groups with a delimiter, identifiers, punctuation, literals);
* the header record `ItemImplHeader` and its parser
  `parseItemImplHeader`, mirroring `impl Parse for ItemImplHeader`
  (which first parses attributes, optional `unsafe`, `impl`, generics
  without a where clause, the trait path, `for`, the self type, and only
  then parses an optional where clause and reattaches it to the
  generics record);
* the syn AST fragments the macro manipulates (`TraitItem`,
  `ImplItem`, `ItemTrait`, `ItemImpl`) at the granularity the macro
  uses them: signatures, bodies, default payloads and attribute lists
  are opaque token data, never inspected by the macro;
* `blanket_trait`, the whole transformation, mirroring the
  `#[proc_macro_attribute]` function: parse the header, walk the trait
  items draining defaults into impl items (erroring on a missing
  default), build the output impl, and emit trait block then impl
  block in that order.

Parsing of sub-grammars that syn provides (attributes, generics,
paths, types, where clauses) is modelled at token granularity: the
generic-parameter list is the angle-bracketed run after `impl`, the
trait path is the balanced token run that stops before the keyword
`for`, the self type is the balanced run that stops before the keyword
`where`, and the where clause is everything after `where`.
-/

/-- Delimiter of a `proc_macro` group: brace, parenthesis, bracket or none. -/
inductive Delim
  | brace
  | paren
  | bracket
  | implicitDelim
deriving DecidableEq, Repr

/-- A token tree, mirroring `proc_macro::TokenTree`: an opaque group with a
delimiter, an identifier, a punctuation character, or a literal. -/
inductive Tok
  | group : Delim → List Tok → Tok
  | ident : String → Tok
  | punct : Char → Tok
  | lit : String → Tok

/-- A `syn::Error`: a source position (modelled as a token index or an item
span) together with a message, as created by `syn::Error::new(span, msg)`. -/
structure Err where
  pos : Nat
  msg : String
deriving DecidableEq, Repr

/-- An outer attribute `#[...]`; its contents are opaque tokens. -/
structure Attr where
  inner : List Tok

/-- `syn::Generics` as used by the macro: the parameter tokens between `<`
and `>`, plus the `where_clause` field that `syn` keeps inside the generics
record (predicate tokens following the `where` keyword). -/
structure Generics where
  params : List Tok
  whereClause : Option (List Tok)

/-- The header record of the macro attribute, mirroring the Rust struct
`ItemImplHeader { attrs, unsafety, impl_token, generics, path, for_, self_ty }`.
The `impl` and `for` keyword tokens carry no data and are not stored; note
that there is no separate where-clause field: the where clause lives inside
`generics`. -/
structure ItemImplHeader where
  attrs : List Attr
  unsafety : Bool
  generics : Generics
  path : List Tok
  self_ty : List Tok

/-- Consume leading outer attributes `#[...]`, mirroring
`Attribute::parse_outer`. Returns the attributes and the remaining tokens. -/
def parseOuterAttrs : List Tok → List Attr × List Tok
  | Tok.punct '#' :: Tok.group Delim.bracket inner :: rest =>
    let (as, r) := parseOuterAttrs rest
    (⟨inner⟩ :: as, r)
  | toks => ([], toks)

/-- Consume an optional `unsafe` keyword, mirroring the parse of
`Option<Token![unsafe]>`. -/
def parseUnsafety : List Tok → Bool × List Tok
  | Tok.ident "unsafe" :: rest => (true, rest)
  | toks => (false, toks)

/-- Consume tokens up to and including the `>` matching an already-consumed
`<`, tracking nested angle brackets with a depth counter. Returns the tokens
strictly inside the brackets and the tokens after the closing `>`. -/
def takeAngleInner : Nat → List Tok → List Tok × List Tok
  | _, [] => ([], [])
  | d, Tok.punct '>' :: rest =>
    if d = 0 then ([], rest)
    else
      let (a, r) := takeAngleInner (d - 1) rest
      (Tok.punct '>' :: a, r)
  | d, Tok.punct '<' :: rest =>
    let (a, r) := takeAngleInner (d + 1) rest
    (Tok.punct '<' :: a, r)
  | d, t :: rest =>
    let (a, r) := takeAngleInner d rest
    (t :: a, r)

/-- Parse the generic-parameter list, mirroring `Generics::parse`: if the
next token is `<`, take the bracketed run; otherwise the generics are empty.
`Generics::parse` never parses a where clause. -/
def parseGenericsParams : List Tok → List Tok × List Tok
  | Tok.punct '<' :: rest => takeAngleInner 0 rest
  | toks => ([], toks)

/-- Greedily take tokens until the keyword `kw` appears as an identifier at
angle-bracket depth zero (or until the stream ends). Models how syn's path
and type parsers stop before the keywords `for` and `where`. -/
def takeUntilKw (kw : String) : Nat → List Tok → List Tok × List Tok
  | _, [] => ([], [])
  | d, Tok.ident s :: rest =>
    if s = kw && d = 0 then ([], Tok.ident s :: rest)
    else
      let (a, r) := takeUntilKw kw d rest
      (Tok.ident s :: a, r)
  | d, Tok.punct '<' :: rest =>
    let (a, r) := takeUntilKw kw (d + 1) rest
    (Tok.punct '<' :: a, r)
  | d, Tok.punct '>' :: rest =>
    let (a, r) := takeUntilKw kw (d - 1) rest
    (Tok.punct '>' :: a, r)
  | d, t :: rest =>
    let (a, r) := takeUntilKw kw d rest
    (t :: a, r)

/-- The part of `ItemImplHeader::parse` before the where clause: attributes,
optional `unsafe`, the `impl` keyword, generics (with `where_clause = None`,
matching the source comment "This never parses the where clause"), the trait
path, the `for` keyword, and the self type. Returns the partially-built
header and the unconsumed tokens (the candidate where-clause suffix). -/
def parseHeaderCore (toks : List Tok) : Except Err (ItemImplHeader × List Tok) :=
  let (attrs, r1) := parseOuterAttrs toks
  let (uns, r2) := parseUnsafety r1
  match r2 with
  | Tok.ident "impl" :: r3 =>
    let (gparams, r4) := parseGenericsParams r3
    let (path, r5) := takeUntilKw "for" 0 r4
    if path.isEmpty then
      Except.error ⟨toks.length - r4.length, "expected path"⟩
    else
      match r5 with
      | Tok.ident "for" :: r6 =>
        let (ty, r7) := takeUntilKw "where" 0 r6
        if ty.isEmpty then
          Except.error ⟨toks.length - r6.length, "expected type"⟩
        else
          Except.ok ({ attrs := attrs, unsafety := uns,
                       generics := { params := gparams, whereClause := none },
                       path := path, self_ty := ty }, r7)
      | _ => Except.error ⟨toks.length - r5.length, "expected for"⟩
  | _ => Except.error ⟨toks.length - r2.length, "expected impl"⟩

/-- The full header parser, mirroring `impl Parse for ItemImplHeader`: run
the core parse, then parse the optional trailing where clause and reattach
it to the generics record (`header.generics.where_clause = where_clause`).
Any other leftover token is a parse error, as `parse_macro_input!` demands
the whole stream be consumed. -/
def parseItemImplHeader (toks : List Tok) : Except Err ItemImplHeader :=
  match parseHeaderCore toks with
  | Except.error e => Except.error e
  | Except.ok (h, Tok.ident "where" :: ws) =>
    Except.ok { h with generics := { h.generics with whereClause := some ws } }
  | Except.ok (h, []) => Except.ok h
  | Except.ok (_, rest) =>
    Except.error ⟨toks.length - rest.length, "unexpected token"⟩

/-- `syn::Visibility` as used by the macro: the generated impl items always
carry `Visibility::Inherited`. -/
inductive Visibility
  | inherited
deriving DecidableEq, Repr

/-- An opaque function body: the brace-delimited `syn::Block` of a trait
function's default implementation. The macro never looks inside it. -/
structure Block where
  toks : List Tok

/-- An opaque function signature (`syn::Signature`): constness, asyncness,
name, generics, parameter list and return type of an `fn` member. The macro
only ever clones it whole. -/
structure Signature where
  toks : List Tok

/-- `syn::TraitItemFn` as the macro uses it: attributes, an opaque
signature, and an optional default body. `span` models `f.span()`. -/
structure TraitItemFn where
  span : Nat
  attrs : List Attr
  sig : Signature
  default : Option Block

/-- `syn::TraitItemType` as the macro uses it: attributes, name, generics,
bounds, and an optional default `= Type` payload (the type tokens after the
`=`). `span` models `t.span()`. -/
structure TraitItemType where
  span : Nat
  attrs : List Attr
  ident : String
  generics : Generics
  bounds : List Tok
  default : Option (List Tok)

/-- `syn::TraitItemConst` as the macro uses it: attributes, name, generics,
the const's type, and an optional default `= expr` payload (the expression
tokens after the `=`). `span` models `c.span()`. -/
structure TraitItemConst where
  span : Nat
  attrs : List Attr
  ident : String
  generics : Generics
  ty : List Tok
  default : Option (List Tok)

/-- `syn::TraitItem` restricted to the cases the macro's `match` handles:
functions, associated types, associated consts, macro invocations and
verbatim token runs. -/
inductive TraitItem
  | fn (f : TraitItemFn)
  | type (t : TraitItemType)
  | const (c : TraitItemConst)
  | macCall (span : Nat) (toks : List Tok)
  | verbatim (span : Nat) (toks : List Tok)

/-- `syn::ItemTrait` at the granularity the macro uses it: the shell fields
are opaque and only `items` is ever touched. -/
structure ItemTrait where
  attrs : List Attr
  vis : List Tok
  unsafety : Bool
  ident : String
  generics : Generics
  supertraits : List Tok
  items : List TraitItem

/-- `syn::ImplItemFn` as constructed by the macro. -/
structure ImplItemFn where
  attrs : List Attr
  vis : Visibility
  defaultness : Bool
  sig : Signature
  block : Block

/-- `syn::ImplItemType` as constructed by the macro. -/
structure ImplItemType where
  attrs : List Attr
  vis : Visibility
  defaultness : Bool
  ident : String
  generics : Generics
  ty : List Tok

/-- `syn::ImplItemConst` as constructed by the macro. -/
structure ImplItemConst where
  attrs : List Attr
  vis : Visibility
  defaultness : Bool
  ident : String
  generics : Generics
  ty : List Tok
  expr : List Tok

/-- `syn::ImplItem` restricted to the cases the macro constructs. -/
inductive ImplItem
  | fn (f : ImplItemFn)
  | type (t : ImplItemType)
  | const (c : ImplItemConst)

/-- `syn::ItemImpl` as constructed by the macro (`out_impl`): header data
copied from the parsed `ItemImplHeader`, plus the collected impl items. -/
structure ItemImpl where
  attrs : List Attr
  unsafety : Bool
  generics : Generics
  trait_path : List Tok
  self_ty : List Tok
  items : List ImplItem

/-- The structured output of the macro: the drained trait block (the
declaration) and the generated impl block (the binding). -/
structure Output where
  decl : ItemTrait
  binding : ItemImpl

/-- One output block of the final token stream. -/
inductive OutBlock
  | declBlock (t : ItemTrait)
  | implBlock (i : ItemImpl)

/-- The emission order of `quote! { #trait_block #out_impl }`: the
declaration block first, then the binding block. -/
def emitOutput (o : Output) : List OutBlock :=
  [OutBlock.declBlock o.decl, OutBlock.implBlock o.binding]

/-- The macro's loop over `trait_block.items`, one step per item:
* macro-invocation and verbatim items are left in the trait block and
  contribute no impl item;
* an `fn` item must have a default body — otherwise the whole invocation
  fails with `Error::new(f.span(), "Expected function body")`; on success
  the body is drained from the trait item (`f.default.take()`) and moved
  into an `ImplItemFn` together with a clone of the attributes and
  signature;
* `type` and `const` items likewise must have a default `=` payload —
  otherwise the invocation fails with `"Expected default value."` at the
  item's span; on success the payload is drained and moved into an
  `ImplItemType` / `ImplItemConst` with the signature fields cloned.
Returns the drained trait items and the collected impl items, or the first
error. -/
def processItems : List TraitItem → Except Err (List TraitItem × List ImplItem)
  | [] => Except.ok ([], [])
  | TraitItem.macCall s ts :: rest =>
    match processItems rest with
    | Except.error e => Except.error e
    | Except.ok (ds, is) => Except.ok (TraitItem.macCall s ts :: ds, is)
  | TraitItem.verbatim s ts :: rest =>
    match processItems rest with
    | Except.error e => Except.error e
    | Except.ok (ds, is) => Except.ok (TraitItem.verbatim s ts :: ds, is)
  | TraitItem.fn f :: rest =>
    match f.default with
    | none => Except.error ⟨f.span, "Expected function body"⟩
    | some b =>
      match processItems rest with
      | Except.error e => Except.error e
      | Except.ok (ds, is) =>
        Except.ok (TraitItem.fn { f with default := none } :: ds,
          ImplItem.fn { attrs := f.attrs, vis := Visibility.inherited,
                        defaultness := false, sig := f.sig, block := b } :: is)
  | TraitItem.type t :: rest =>
    match t.default with
    | none => Except.error ⟨t.span, "Expected default value."⟩
    | some ty =>
      match processItems rest with
      | Except.error e => Except.error e
      | Except.ok (ds, is) =>
        Except.ok (TraitItem.type { t with default := none } :: ds,
          ImplItem.type { attrs := t.attrs, vis := Visibility.inherited,
                          defaultness := false, ident := t.ident,
                          generics := t.generics, ty := ty } :: is)
  | TraitItem.const c :: rest =>
    match c.default with
    | none => Except.error ⟨c.span, "Expected default value."⟩
    | some e =>
      match processItems rest with
      | Except.error er => Except.error er
      | Except.ok (ds, is) =>
        Except.ok (TraitItem.const { c with default := none } :: ds,
          ImplItem.const { attrs := c.attrs, vis := Visibility.inherited,
                           defaultness := false, ident := c.ident,
                           generics := c.generics, ty := c.ty, expr := e } :: is)

/-- The whole transformation `blanket_trait(first, tokens)`: parse the
attribute tokens as an `ItemImplHeader` (any parse error is returned as a
compile error before any trait item is looked at), drain the trait items
while collecting impl items (any missing default aborts the invocation),
assemble `out_impl` from the header and the collected items, and return the
structured output whose emission order is declaration then binding. -/
def blanket_trait (first : List Tok) (tb : ItemTrait) : Except Err Output :=
  match parseItemImplHeader first with
  | Except.error e => Except.error e
  | Except.ok header =>
    match processItems tb.items with
    | Except.error e => Except.error e
    | Except.ok (declItems, implItems) =>
      Except.ok { decl := { tb with items := declItems },
                  binding := { attrs := header.attrs,
                               unsafety := header.unsafety,
                               generics := header.generics,
                               trait_path := header.path,
                               self_ty := header.self_ty,
                               items := implItems } }

/-- Whether a trait item would pass the macro's default check: `fn`, `type`
and `const` items need a default payload; macro-invocation and verbatim
items are never checked. -/
def hasDefault : TraitItem → Bool
  | TraitItem.fn f => f.default.isSome
  | TraitItem.type t => t.default.isSome
  | TraitItem.const c => c.default.isSome
  | TraitItem.macCall _ _ => true
  | TraitItem.verbatim _ _ => true

/-- The effect of `default.take()` on a trait item: the default payload is
removed, everything else (attributes, signature, span) is unchanged.
Macro-invocation and verbatim items are untouched. -/
def stripDefault : TraitItem → TraitItem
  | TraitItem.fn f => TraitItem.fn { f with default := none }
  | TraitItem.type t => TraitItem.type { t with default := none }
  | TraitItem.const c => TraitItem.const { c with default := none }
  | it => it

/-- The impl item the macro builds from a defaulted trait item: attributes
and signature data are cloned, the default payload becomes the body/value,
visibility is `Inherited` and defaultness is absent. Items without a default
payload, and macro-invocation/verbatim items, yield no impl item. -/
def toBindingItem : TraitItem → Option ImplItem
  | TraitItem.fn f =>
    f.default.map fun b =>
      ImplItem.fn { attrs := f.attrs, vis := Visibility.inherited,
                    defaultness := false, sig := f.sig, block := b }
  | TraitItem.type t =>
    t.default.map fun ty =>
      ImplItem.type { attrs := t.attrs, vis := Visibility.inherited,
                      defaultness := false, ident := t.ident,
                      generics := t.generics, ty := ty }
  | TraitItem.const c =>
    c.default.map fun e =>
      ImplItem.const { attrs := c.attrs, vis := Visibility.inherited,
                       defaultness := false, ident := c.ident,
                       generics := c.generics, ty := c.ty, expr := e }
  | TraitItem.macCall _ _ => none
  | TraitItem.verbatim _ _ => none

/-- The span of a trait item, modelling `item.span()`. -/
def spanOf : TraitItem → Nat
  | TraitItem.fn f => f.span
  | TraitItem.type t => t.span
  | TraitItem.const c => c.span
  | TraitItem.macCall s _ => s
  | TraitItem.verbatim s _ => s

/-- The error message the macro reports for a member missing its default:
`"Expected function body"` for `fn` members, `"Expected default value."`
for `type` and `const` members. -/
def missingDefaultMsg : TraitItem → String
  | TraitItem.fn _ => "Expected function body"
  | _ => "Expected default value."

/-- Whether a trait item is a real member (fn, type or const), as opposed to
a macro-invocation or verbatim item. -/
def isRealMember : TraitItem → Bool
  | TraitItem.fn _ => true
  | TraitItem.type _ => true
  | TraitItem.const _ => true
  | _ => false

theorem processItems_eq_of_all :
    ∀ items : List TraitItem, items.all hasDefault = true →
      processItems items =
        Except.ok (items.map stripDefault, items.filterMap toBindingItem) := by
  intro items h
  induction items with
  | nil => rfl
  | cons item rest ih =>
    rw [List.all_cons, Bool.and_eq_true] at h
    have hr := ih h.2
    have hi := h.1
    cases item with
    | fn f =>
      cases hd : f.default with
      | none => rw [hasDefault, hd] at hi; simp at hi
      | some b => simp [processItems, hd, hr, stripDefault, toBindingItem]
    | type t =>
      cases hd : t.default with
      | none => rw [hasDefault, hd] at hi; simp at hi
      | some ty => simp [processItems, hd, hr, stripDefault, toBindingItem]
    | const c =>
      cases hd : c.default with
      | none => rw [hasDefault, hd] at hi; simp at hi
      | some e => simp [processItems, hd, hr, stripDefault, toBindingItem]
    | macCall s ts => simp [processItems, hr, stripDefault, toBindingItem]
    | verbatim s ts => simp [processItems, hr, stripDefault, toBindingItem]

theorem processItems_ok_all :
    ∀ (items : List TraitItem) (ds : List TraitItem) (is : List ImplItem),
      processItems items = Except.ok (ds, is) → items.all hasDefault = true := by
  intro items
  induction items with
  | nil => intro ds is _; rfl
  | cons item rest ih =>
    intro ds is h
    cases item with
    | fn f =>
      cases hd : f.default with
      | none => rw [processItems, hd] at h; exact absurd h (by simp)
      | some b =>
        rw [processItems, hd] at h
        cases hr : processItems rest with
        | error e => rw [hr] at h; exact absurd h (by simp)
        | ok p =>
          rw [List.all_cons, Bool.and_eq_true]
          exact ⟨by rw [hasDefault, hd]; rfl, ih p.1 p.2 hr⟩
    | type t =>
      cases hd : t.default with
      | none => rw [processItems, hd] at h; exact absurd h (by simp)
      | some ty =>
        rw [processItems, hd] at h
        cases hr : processItems rest with
        | error e => rw [hr] at h; exact absurd h (by simp)
        | ok p =>
          rw [List.all_cons, Bool.and_eq_true]
          exact ⟨by rw [hasDefault, hd]; rfl, ih p.1 p.2 hr⟩
    | const c =>
      cases hd : c.default with
      | none => rw [processItems, hd] at h; exact absurd h (by simp)
      | some e =>
        rw [processItems, hd] at h
        cases hr : processItems rest with
        | error er => rw [hr] at h; exact absurd h (by simp)
        | ok p =>
          rw [List.all_cons, Bool.and_eq_true]
          exact ⟨by rw [hasDefault, hd]; rfl, ih p.1 p.2 hr⟩
    | macCall s ts =>
      rw [processItems] at h
      cases hr : processItems rest with
      | error e => rw [hr] at h; exact absurd h (by simp)
      | ok p =>
        rw [List.all_cons, Bool.and_eq_true]
        exact ⟨rfl, ih p.1 p.2 hr⟩
    | verbatim s ts =>
      rw [processItems] at h
      cases hr : processItems rest with
      | error e => rw [hr] at h; exact absurd h (by simp)
      | ok p =>
        rw [List.all_cons, Bool.and_eq_true]
        exact ⟨rfl, ih p.1 p.2 hr⟩

theorem processItems_error_first :
    ∀ (pre : List TraitItem) (bad : TraitItem) (post : List TraitItem),
      pre.all hasDefault = true → hasDefault bad = false →
      processItems (pre ++ bad :: post) =
        Except.error ⟨spanOf bad, missingDefaultMsg bad⟩ := by
  intro pre bad post hpre hbad
  induction pre with
  | nil =>
    cases bad with
    | fn f =>
      cases hd : f.default with
      | none => simp [processItems, hd, spanOf, missingDefaultMsg]
      | some b => rw [hasDefault, hd] at hbad; simp at hbad
    | type t =>
      cases hd : t.default with
      | none => simp [processItems, hd, spanOf, missingDefaultMsg]
      | some ty => rw [hasDefault, hd] at hbad; simp at hbad
    | const c =>
      cases hd : c.default with
      | none => simp [processItems, hd, spanOf, missingDefaultMsg]
      | some e => rw [hasDefault, hd] at hbad; simp at hbad
    | macCall s ts => rw [hasDefault] at hbad; simp at hbad
    | verbatim s ts => rw [hasDefault] at hbad; simp at hbad
  | cons item rest ih =>
    rw [List.all_cons, Bool.and_eq_true] at hpre
    have hr := ih hpre.2
    have hi := hpre.1
    cases item with
    | fn f =>
      cases hd : f.default with
      | none => rw [hasDefault, hd] at hi; simp at hi
      | some b => simp [processItems, hd, hr]
    | type t =>
      cases hd : t.default with
      | none => rw [hasDefault, hd] at hi; simp at hi
      | some ty => simp [processItems, hd, hr]
    | const c =>
      cases hd : c.default with
      | none => rw [hasDefault, hd] at hi; simp at hi
      | some e => simp [processItems, hd, hr]
    | macCall s ts => simp [processItems, hr]
    | verbatim s ts => simp [processItems, hr]

theorem blanket_trait_ok_inv :
    ∀ (first : List Tok) (tb : ItemTrait) (out : Output),
      blanket_trait first tb = Except.ok out →
      ∃ header : ItemImplHeader,
        parseItemImplHeader first = Except.ok header ∧
        tb.items.all hasDefault = true ∧
        out = { decl := { tb with items := tb.items.map stripDefault },
                binding := { attrs := header.attrs, unsafety := header.unsafety,
                             generics := header.generics, trait_path := header.path,
                             self_ty := header.self_ty,
                             items := tb.items.filterMap toBindingItem } } := by
  intro first tb out h
  unfold blanket_trait at h
  cases hp : parseItemImplHeader first with
  | error e => rw [hp] at h; exact absurd h (by simp)
  | ok header =>
    rw [hp] at h
    cases hq : processItems tb.items with
    | error e => rw [hq] at h; exact absurd h (by simp)
    | ok p =>
      rw [hq] at h
      have hall := processItems_ok_all tb.items p.1 p.2 hq
      have heq := processItems_eq_of_all tb.items hall
      rw [hq] at heq
      have h1 : p.1 = tb.items.map stripDefault := by
        have := congrArg (fun x => match x with
          | Except.ok (q : List TraitItem × List ImplItem) => q.1
          | Except.error _ => p.1) heq
        simpa using this
      have h2 : p.2 = tb.items.filterMap toBindingItem := by
        have := congrArg (fun x => match x with
          | Except.ok (q : List TraitItem × List ImplItem) => q.2
          | Except.error _ => p.2) heq
        simpa using this
      refine ⟨header, rfl, hall, ?_⟩
      cases h
      rw [h1, h2]

/-- Whether the character run `needle` is an initial segment of `hay`. -/
def leadsWith : List Char → List Char → Bool
  | [], _ => true
  | _ :: _, [] => false
  | a :: as, b :: bs => a = b && leadsWith as bs

/-- Whether the character run `needle` occurs contiguously inside `hay`. -/
def containsRun (needle : List Char) : List Char → Bool
  | [] => leadsWith needle []
  | c :: rest => leadsWith needle (c :: rest) || containsRun needle rest

/-- Whether the string `hay` mentions the string `needle` as a contiguous
substring. Used to state whether an error message names a member kind. -/
def strMentions (hay needle : String) : Bool :=
  containsRun needle.toList hay.toList

def emptyGen : Generics := { params := [], whereClause := none }

/-- Attribute tokens of the test fixture `impl<T: A> B for T`. -/
def hdrToksSimple : List Tok :=
  [Tok.ident "impl", Tok.punct '<', Tok.ident "T", Tok.punct ':', Tok.ident "A",
   Tok.punct '>', Tok.ident "B", Tok.ident "for", Tok.ident "T"]

/-- The header `ItemImplHeader::parse` produces for `hdrToksSimple`. -/
def egHeaderB : ItemImplHeader :=
  { attrs := [], unsafety := false,
    generics := { params := [Tok.ident "T", Tok.punct ':', Tok.ident "A"],
                  whereClause := none },
    path := [Tok.ident "B"], self_ty := [Tok.ident "T"] }

theorem parse_hdrToksSimple :
    parseItemImplHeader hdrToksSimple = Except.ok egHeaderB := rfl

/-- A trait block shell shared by the concrete test fixtures. -/
def mkTraitBlock (items : List TraitItem) : ItemTrait :=
  { attrs := [], vis := [Tok.ident "pub"], unsafety := false, ident := "B",
    generics := emptyGen, supertraits := [], items := items }

/-- The opaque body `{ self.aa() }` of the test fixture. -/
def egBody : Block :=
  ⟨[Tok.ident "self", Tok.punct '.', Tok.ident "aa", Tok.group Delim.paren []]⟩

/-- The opaque signature `fn a(&self) -> i32` of the test fixture. -/
def egSig : Signature :=
  ⟨[Tok.ident "fn", Tok.ident "a",
    Tok.group Delim.paren [Tok.punct '&', Tok.ident "self"],
    Tok.punct '-', Tok.punct '>', Tok.ident "i32"]⟩

def egFnItem : TraitItemFn :=
  { span := 2, attrs := [], sig := egSig, default := some egBody }

def tbFnDefaulted : ItemTrait := mkTraitBlock [TraitItem.fn egFnItem]

def tbFnNoDefault : ItemTrait :=
  mkTraitBlock [TraitItem.fn { egFnItem with default := none }]

def tbTypeNoDefault : ItemTrait :=
  mkTraitBlock [TraitItem.type { span := 5, attrs := [], ident := "X",
                                 generics := emptyGen, bounds := [], default := none }]

def tbConstNoDefault : ItemTrait :=
  mkTraitBlock [TraitItem.const { span := 5, attrs := [], ident := "K",
                                  generics := emptyGen, ty := [Tok.ident "i32"],
                                  default := none }]

def tbMacOnly : ItemTrait :=
  mkTraitBlock [TraitItem.macCall 3 [Tok.ident "m", Tok.punct '!',
                                     Tok.group Delim.paren []]]

def tbEmpty : ItemTrait := mkTraitBlock []

/-- Claim C1, counterexample. The claim requires the "missing default" error
to name the offending member kind. The code uses the identical message
"Expected default value." for a defaultless `type` member and a defaultless
`const` member, and that message mentions neither the word "type" nor the
word "const", so the error does not name the member kind. -/
theorem c1_counterexample :
    blanket_trait hdrToksSimple tbTypeNoDefault =
      Except.error ⟨5, "Expected default value."⟩ ∧
    blanket_trait hdrToksSimple tbConstNoDefault =
      Except.error ⟨5, "Expected default value."⟩ ∧
    strMentions "Expected default value." "type" = false ∧
    strMentions "Expected default value." "const" = false :=
  ⟨rfl, rfl, rfl, rfl⟩

/-- Claim C1, amended: for every trait member of fn, type or const kind that
lacks a default payload (and is the first such member), the transformation
fails with a missing-default error tagged at that member's span — message
"Expected function body" for fn members and "Expected default value." for
type and const members (the latter two share one message that does not name
the kind) — and produces no declaration or binding output. -/
theorem c1_missing_default_amended :
    ∀ (first : List Tok) (header : ItemImplHeader) (tb : ItemTrait)
      (pre : List TraitItem) (bad : TraitItem) (post : List TraitItem),
      parseItemImplHeader first = Except.ok header →
      tb.items = pre ++ bad :: post →
      pre.all hasDefault = true →
      hasDefault bad = false →
      blanket_trait first tb = Except.error ⟨spanOf bad, missingDefaultMsg bad⟩ := by
  intro first header tb pre bad post hp hitems hpre hbad
  unfold blanket_trait
  rw [hp, hitems, processItems_error_first pre bad post hpre hbad]

/-- Witness for C1 (amended): a concrete trait block whose single fn member
has no body makes the transformation fail at the member's span with the
fn-specific message. -/
theorem c1_missing_default_amended_witness :
    blanket_trait hdrToksSimple tbFnNoDefault =
      Except.error ⟨2, "Expected function body"⟩ :=
  c1_missing_default_amended hdrToksSimple egHeaderB tbFnNoDefault []
    (TraitItem.fn { egFnItem with default := none }) [] rfl rfl rfl rfl

/-- Claim C2: when the header parses and every fn/type/const member carries
a default, the transformation succeeds; the declaration block is the input
trait block with only the members' default payloads removed (all shell
fields unchanged), and the emission order puts the declaration block before
the binding block. -/
theorem c2_declaration_stripped_and_first :
    ∀ (first : List Tok) (header : ItemImplHeader) (tb : ItemTrait),
      parseItemImplHeader first = Except.ok header →
      tb.items.all hasDefault = true →
      ∃ out : Output,
        blanket_trait first tb = Except.ok out ∧
        out.decl = { tb with items := tb.items.map stripDefault } ∧
        emitOutput out = [OutBlock.declBlock out.decl, OutBlock.implBlock out.binding] := by
  intro first header tb hp hall
  refine ⟨{ decl := { tb with items := tb.items.map stripDefault },
            binding := { attrs := header.attrs, unsafety := header.unsafety,
                         generics := header.generics, trait_path := header.path,
                         self_ty := header.self_ty,
                         items := tb.items.filterMap toBindingItem } }, ?_, rfl, rfl⟩
  unfold blanket_trait
  rw [hp, processItems_eq_of_all tb.items hall]

/-- Witness for C2 at a concrete fully-defaulted one-member trait block. -/
theorem c2_declaration_stripped_and_first_witness :
    ∃ out : Output,
      blanket_trait hdrToksSimple tbFnDefaulted = Except.ok out ∧
      out.decl = { tbFnDefaulted with items := tbFnDefaulted.items.map stripDefault } ∧
      emitOutput out = [OutBlock.declBlock out.decl, OutBlock.implBlock out.binding] :=
  c2_declaration_stripped_and_first hdrToksSimple egHeaderB tbFnDefaulted rfl rfl

/-- An attribute `#[inline]` used on a fixture member. -/
def egAttr : Attr := ⟨[Tok.ident "inline"]⟩

/-- A defaulted associated-type member `#[inline] type X = T::AA;`. -/
def egTypeItem : TraitItemType :=
  { span := 4, attrs := [egAttr], ident := "X", generics := emptyGen, bounds := [],
    default := some [Tok.ident "T", Tok.punct ':', Tok.punct ':', Tok.ident "AA"] }

/-- A two-member fully-defaulted trait block: a type member then an fn. -/
def tbTwoMembers : ItemTrait :=
  mkTraitBlock [TraitItem.type egTypeItem, TraitItem.fn egFnItem]

/-- The output the macro produces on `hdrToksSimple` and `tbTwoMembers`. -/
def twoMembersOut : Output :=
  { decl := mkTraitBlock [TraitItem.type { egTypeItem with default := none },
                          TraitItem.fn { egFnItem with default := none }],
    binding := { attrs := [], unsafety := false, generics := egHeaderB.generics,
                 trait_path := [Tok.ident "B"], self_ty := [Tok.ident "T"],
                 items := [ImplItem.type { attrs := [egAttr], vis := Visibility.inherited,
                                           defaultness := false, ident := "X",
                                           generics := emptyGen,
                                           ty := [Tok.ident "T", Tok.punct ':',
                                                  Tok.punct ':', Tok.ident "AA"] },
                           ImplItem.fn { attrs := [], vis := Visibility.inherited,
                                         defaultness := false, sig := egSig,
                                         block := egBody }] } }

/-- Claim C3: for every successful run, the binding block is the parsed
header (attributes, unsafety, generics with any where clause, target path,
target type) wrapping exactly the originally-defaulted members in original
order, each with its original attributes and default payload (the
order-preserving `filterMap` of `toBindingItem` over the input items). -/
theorem c3_binding_block_contents :
    ∀ (first : List Tok) (header : ItemImplHeader) (tb : ItemTrait),
      parseItemImplHeader first = Except.ok header →
      tb.items.all hasDefault = true →
      ∃ out : Output,
        blanket_trait first tb = Except.ok out ∧
        out.binding = { attrs := header.attrs, unsafety := header.unsafety,
                        generics := header.generics, trait_path := header.path,
                        self_ty := header.self_ty,
                        items := tb.items.filterMap toBindingItem } := by
  intro first header tb hp hall
  refine ⟨{ decl := { tb with items := tb.items.map stripDefault },
            binding := { attrs := header.attrs, unsafety := header.unsafety,
                         generics := header.generics, trait_path := header.path,
                         self_ty := header.self_ty,
                         items := tb.items.filterMap toBindingItem } }, ?_, rfl⟩
  unfold blanket_trait
  rw [hp, processItems_eq_of_all tb.items hall]

/-- Witness for C3 at the concrete two-member trait block. -/
theorem c3_binding_block_contents_witness :
    ∃ out : Output,
      blanket_trait hdrToksSimple tbTwoMembers = Except.ok out ∧
      out.binding = { attrs := egHeaderB.attrs, unsafety := egHeaderB.unsafety,
                      generics := egHeaderB.generics, trait_path := egHeaderB.path,
                      self_ty := egHeaderB.self_ty,
                      items := tbTwoMembers.items.filterMap toBindingItem } :=
  c3_binding_block_contents hdrToksSimple egHeaderB tbTwoMembers rfl rfl

/-- Claim C4, counterexample. The claim says a macro-invocation member is
not mirrored into the declaration output. On a trait block whose only item
is a macro invocation, the transformation succeeds with the declaration
equal to the input block — the macro member is still in the declaration
items; it is the binding impl that is empty. -/
theorem c4_counterexample :
    blanket_trait hdrToksSimple tbMacOnly =
      Except.ok { decl := tbMacOnly,
                  binding := { attrs := [], unsafety := false,
                               generics := egHeaderB.generics,
                               trait_path := [Tok.ident "B"],
                               self_ty := [Tok.ident "T"], items := [] } } ∧
    TraitItem.macCall 3 [Tok.ident "m", Tok.punct '!', Tok.group Delim.paren []]
      ∈ tbMacOnly.items :=
  ⟨rfl, by simp [tbMacOnly, mkTraitBlock]⟩

/-- Claim C4, amended: macro-invocation and verbatim members are skipped in
the binding-construction pass — they contribute no impl item, so they are
not mirrored into the binding output — while they remain (unchanged) in the
declaration output. -/
theorem c4_skip_in_binding_amended :
    ∀ (first : List Tok) (tb : ItemTrait) (out : Output),
      blanket_trait first tb = Except.ok out →
      (∀ (s : Nat) (ts : List Tok), TraitItem.macCall s ts ∈ tb.items →
        TraitItem.macCall s ts ∈ out.decl.items) ∧
      (∀ (s : Nat) (ts : List Tok), TraitItem.verbatim s ts ∈ tb.items →
        TraitItem.verbatim s ts ∈ out.decl.items) ∧
      (∀ (s : Nat) (ts : List Tok), toBindingItem (TraitItem.macCall s ts) = none) ∧
      (∀ (s : Nat) (ts : List Tok), toBindingItem (TraitItem.verbatim s ts) = none) ∧
      out.binding.items = tb.items.filterMap toBindingItem := by
  intro first tb out h
  obtain ⟨header, hp, hall, hout⟩ := blanket_trait_ok_inv first tb out h
  subst hout
  refine ⟨?_, ?_, fun s ts => rfl, fun s ts => rfl, rfl⟩
  · intro s ts hm
    have := List.mem_map_of_mem stripDefault hm
    simpa [stripDefault] using this
  · intro s ts hm
    have := List.mem_map_of_mem stripDefault hm
    simpa [stripDefault] using this

/-- Witness for C4 (amended): on the macro-only trait block the macro member
stays in the declaration output and the binding has no items. -/
theorem c4_skip_in_binding_amended_witness :
    TraitItem.macCall 3 [Tok.ident "m", Tok.punct '!', Tok.group Delim.paren []]
      ∈ ({ decl := tbMacOnly,
           binding := { attrs := [], unsafety := false,
                        generics := egHeaderB.generics,
                        trait_path := [Tok.ident "B"], self_ty := [Tok.ident "T"],
                        items := [] } } : Output).decl.items ∧
    toBindingItem (TraitItem.macCall 3 [Tok.ident "m", Tok.punct '!',
                                        Tok.group Delim.paren []]) = none := by
  have h := c4_skip_in_binding_amended hdrToksSimple tbMacOnly
    { decl := tbMacOnly,
      binding := { attrs := [], unsafety := false, generics := egHeaderB.generics,
                   trait_path := [Tok.ident "B"], self_ty := [Tok.ident "T"],
                   items := [] } } rfl
  exact ⟨h.1 3 [Tok.ident "m", Tok.punct '!', Tok.group Delim.paren []]
           (by simp [tbMacOnly, mkTraitBlock]),
         h.2.2.1 3 [Tok.ident "m", Tok.punct '!', Tok.group Delim.paren []]⟩

theorem parseHeaderCore_ok_whereClause :
    ∀ (toks : List Tok) (h : ItemImplHeader) (rest : List Tok),
      parseHeaderCore toks = Except.ok (h, rest) →
      h.generics.whereClause = none := by
  intro toks h rest hp
  unfold parseHeaderCore at hp
  repeat' split at hp
  all_goals simp_all
  rw [← hp.1]

/-- Attribute tokens of the fixture `impl<T: A> B for T where T::AA: Send`. -/
def c6Toks : List Tok :=
  [Tok.ident "impl", Tok.punct '<', Tok.ident "T", Tok.punct ':', Tok.ident "A",
   Tok.punct '>', Tok.ident "B", Tok.ident "for", Tok.ident "T",
   Tok.ident "where", Tok.ident "T", Tok.punct ':', Tok.punct ':',
   Tok.ident "AA", Tok.punct ':', Tok.ident "Send"]

/-- The header produced by the core parse of `c6Toks` (no where clause yet). -/
def c6CoreHeader : ItemImplHeader :=
  { attrs := [], unsafety := false,
    generics := { params := [Tok.ident "T", Tok.punct ':', Tok.ident "A"],
                  whereClause := none },
    path := [Tok.ident "B"], self_ty := [Tok.ident "T"] }

/-- The where-clause predicate tokens `T::AA: Send` of `c6Toks`. -/
def c6WhereToks : List Tok :=
  [Tok.ident "T", Tok.punct ':', Tok.punct ':', Tok.ident "AA",
   Tok.punct ':', Tok.ident "Send"]

/-- Claim C5: whenever the core header parse (which never produces a where
clause) leaves a trailing `where` suffix after the target type, the full
parser succeeds and reattaches that suffix to the generics record of the
parsed header — the header has no separate where-clause field. -/
theorem c5_where_clause_reattached :
    ∀ (toks : List Tok) (h : ItemImplHeader) (ws : List Tok),
      parseHeaderCore toks = Except.ok (h, Tok.ident "where" :: ws) →
      h.generics.whereClause = none ∧
      parseItemImplHeader toks =
        Except.ok { h with generics := { h.generics with whereClause := some ws } } := by
  intro toks h ws hp
  refine ⟨parseHeaderCore_ok_whereClause toks h _ hp, ?_⟩
  unfold parseItemImplHeader
  rw [hp]
  rfl

/-- Witness for C5 at the concrete header with a where clause. -/
theorem c5_where_clause_reattached_witness :
    c6CoreHeader.generics.whereClause = none ∧
    parseItemImplHeader c6Toks =
      Except.ok { c6CoreHeader with
                  generics := { c6CoreHeader.generics with
                                whereClause := some c6WhereToks } } :=
  c5_where_clause_reattached c6Toks c6CoreHeader c6WhereToks rfl

/-- Claim C6: on the header input `impl<T: A> B for T where T::AA: Send` the
parser succeeds, reproducing the generic parameter `T: A`, the target
interface path `B`, the target type `T` and the constraint `T::AA: Send`
verbatim. -/
theorem c6_header_fidelity :
    parseItemImplHeader c6Toks =
      Except.ok { attrs := [], unsafety := false,
                  generics := { params := [Tok.ident "T", Tok.punct ':', Tok.ident "A"],
                                whereClause := some [Tok.ident "T", Tok.punct ':',
                                                     Tok.punct ':', Tok.ident "AA",
                                                     Tok.punct ':', Tok.ident "Send"] },
                  path := [Tok.ident "B"], self_ty := [Tok.ident "T"] } := rfl

/-- Claim C7: when the target-binding directive fails to parse as a header
(missing `impl` or `for`, unparsable path or type, or trailing junk), the
whole transformation returns exactly that position-tagged error, for every
trait block alike — so it aborts before any member is processed. -/
theorem c7_malformed_header_aborts :
    ∀ (first : List Tok) (e : Err) (tb : ItemTrait),
      parseItemImplHeader first = Except.error e →
      blanket_trait first tb = Except.error e := by
  intro first e tb hp
  unfold blanket_trait
  rw [hp]

/-- Tokens of the malformed directive `impl B` (no `for` clause). -/
def badHdrToks : List Tok := [Tok.ident "impl", Tok.ident "B"]

/-- Witness for C7: the malformed directive `impl B` aborts the run on a
trait block with a (defaulted) member, reporting the position-tagged
missing-`for` error. -/
theorem c7_malformed_header_aborts_witness :
    blanket_trait badHdrToks tbFnDefaulted = Except.error ⟨2, "expected for"⟩ :=
  c7_malformed_header_aborts badHdrToks ⟨2, "expected for"⟩ tbFnDefaulted rfl

/-- Claim C8: a behavior member's default body is relocated, never
decomposed: if a successful run saw an fn member with body `b`, the binding
output contains an impl fn item carrying the very same attributes,
signature and body value `b`, identical to the input. -/
theorem c8_body_opacity :
    ∀ (first : List Tok) (tb : ItemTrait) (out : Output)
      (f : TraitItemFn) (b : Block),
      blanket_trait first tb = Except.ok out →
      TraitItem.fn f ∈ tb.items →
      f.default = some b →
      ImplItem.fn { attrs := f.attrs, vis := Visibility.inherited,
                    defaultness := false, sig := f.sig, block := b }
        ∈ out.binding.items := by
  intro first tb out f b h hm hd
  obtain ⟨header, hp, hall, hout⟩ := blanket_trait_ok_inv first tb out h
  subst hout
  exact List.mem_filterMap.mpr ⟨TraitItem.fn f, hm, by simp [toBindingItem, hd]⟩

/-- The output the macro produces on `hdrToksSimple` and `tbFnDefaulted`. -/
def fnDefaultedOut : Output :=
  { decl := tbFnNoDefault,
    binding := { attrs := [], unsafety := false, generics := egHeaderB.generics,
                 trait_path := [Tok.ident "B"], self_ty := [Tok.ident "T"],
                 items := [ImplItem.fn { attrs := [], vis := Visibility.inherited,
                                         defaultness := false, sig := egSig,
                                         block := egBody }] } }

/-- Witness for C8: the concrete body `egBody` of the fixture fn member
reappears unchanged in the binding items. -/
theorem c8_body_opacity_witness :
    ImplItem.fn { attrs := egFnItem.attrs, vis := Visibility.inherited,
                  defaultness := false, sig := egFnItem.sig, block := egBody }
      ∈ fnDefaultedOut.binding.items :=
  c8_body_opacity hdrToksSimple tbFnDefaulted fnDefaultedOut egFnItem egBody rfl
    (by simp [tbFnDefaulted, mkTraitBlock]) rfl

/-- The default payload carried by a binding-side impl item: the body of an
fn, the type value of an associated type, or the expression of a const. -/
inductive Payload
  | body (b : Block)
  | tyVal (ts : List Tok)
  | exprVal (ts : List Tok)

/-- Recover the default payload from a binding-side impl item. -/
def payloadOf : ImplItem → Payload
  | ImplItem.fn f => Payload.body f.block
  | ImplItem.type t => Payload.tyVal t.ty
  | ImplItem.const c => Payload.exprVal c.expr

/-- Reattach a recovered default payload to a declaration-side member,
restoring the original member when the payload kind matches. -/
def reattachDefault : TraitItem → Payload → Option TraitItem
  | TraitItem.fn f, Payload.body b =>
    some (TraitItem.fn { f with default := some b })
  | TraitItem.type t, Payload.tyVal ts =>
    some (TraitItem.type { t with default := some ts })
  | TraitItem.const c, Payload.exprVal ts =>
    some (TraitItem.const { c with default := some ts })
  | _, _ => none

/-- Agreement of the signature parts of a trait member and a binding-side
impl item: same attribute list and, per kind, the same signature / name,
generics and type annotation. -/
def sigAgrees : TraitItem → ImplItem → Prop
  | TraitItem.fn f, ImplItem.fn g =>
    g.attrs = f.attrs ∧ g.sig = f.sig
  | TraitItem.type t, ImplItem.type u =>
    u.attrs = t.attrs ∧ u.ident = t.ident ∧ u.generics = t.generics
  | TraitItem.const c, ImplItem.const u =>
    u.attrs = c.attrs ∧ u.ident = c.ident ∧ u.generics = c.generics ∧ u.ty = c.ty
  | _, _ => False

/-- Claim C9: on every successful run, each real member's signature is
preserved exactly on both sides of the split — the declaration side holds
the member with only its default removed, the binding side holds an impl
item with the same attributes and signature data, and reattaching the
payload recovered from the binding item to the declaration member
reconstructs the original member exactly. -/
theorem c9_split_merge_round_trip :
    ∀ (first : List Tok) (tb : ItemTrait) (out : Output) (m : TraitItem),
      blanket_trait first tb = Except.ok out →
      m ∈ tb.items →
      isRealMember m = true →
      stripDefault m ∈ out.decl.items ∧
      ∃ ib : ImplItem, toBindingItem m = some ib ∧ ib ∈ out.binding.items ∧
        sigAgrees m ib ∧
        reattachDefault (stripDefault m) (payloadOf ib) = some m := by
  intro first tb out m h hm hreal
  obtain ⟨header, hp, hall, hout⟩ := blanket_trait_ok_inv first tb out h
  subst hout
  have hd : hasDefault m = true := List.all_eq_true.mp hall m hm
  refine ⟨List.mem_map_of_mem stripDefault hm, ?_⟩
  cases m with
  | fn f =>
    obtain ⟨span, attrs, sig, dflt⟩ := f
    rw [hasDefault] at hd
    obtain ⟨b, hb⟩ := Option.isSome_iff_exists.mp hd
    subst hb
    exact ⟨ImplItem.fn { attrs := attrs, vis := Visibility.inherited,
                         defaultness := false, sig := sig, block := b },
           rfl, List.mem_filterMap.mpr ⟨_, hm, rfl⟩, ⟨rfl, rfl⟩, rfl⟩
  | type t =>
    obtain ⟨span, attrs, ident, gens, bounds, dflt⟩ := t
    rw [hasDefault] at hd
    obtain ⟨ty, hb⟩ := Option.isSome_iff_exists.mp hd
    subst hb
    exact ⟨ImplItem.type { attrs := attrs, vis := Visibility.inherited,
                           defaultness := false, ident := ident,
                           generics := gens, ty := ty },
           rfl, List.mem_filterMap.mpr ⟨_, hm, rfl⟩, ⟨rfl, rfl, rfl⟩, rfl⟩
  | const c =>
    obtain ⟨span, attrs, ident, gens, ty, dflt⟩ := c
    rw [hasDefault] at hd
    obtain ⟨e, hb⟩ := Option.isSome_iff_exists.mp hd
    subst hb
    exact ⟨ImplItem.const { attrs := attrs, vis := Visibility.inherited,
                            defaultness := false, ident := ident,
                            generics := gens, ty := ty, expr := e },
           rfl, List.mem_filterMap.mpr ⟨_, hm, rfl⟩, ⟨rfl, rfl, rfl, rfl⟩, rfl⟩
  | macCall s ts => simp [isRealMember] at hreal
  | verbatim s ts => simp [isRealMember] at hreal

/-- Witness for C9 at the attribute-carrying type member of the concrete
two-member trait block. -/
theorem c9_split_merge_round_trip_witness :
    stripDefault (TraitItem.type egTypeItem) ∈ twoMembersOut.decl.items ∧
    ∃ ib : ImplItem, toBindingItem (TraitItem.type egTypeItem) = some ib ∧
      ib ∈ twoMembersOut.binding.items ∧
      sigAgrees (TraitItem.type egTypeItem) ib ∧
      reattachDefault (stripDefault (TraitItem.type egTypeItem)) (payloadOf ib) =
        some (TraitItem.type egTypeItem) :=
  c9_split_merge_round_trip hdrToksSimple tbTwoMembers twoMembersOut
    (TraitItem.type egTypeItem) rfl (by simp [tbTwoMembers, mkTraitBlock]) rfl

/-- Whether a trait item is a macro-invocation or verbatim item. -/
def isTrivialItem : TraitItem → Bool
  | TraitItem.macCall _ _ => true
  | TraitItem.verbatim _ _ => true
  | _ => false

theorem hasDefault_of_trivial :
    ∀ it : TraitItem, isTrivialItem it = true → hasDefault it = true := by
  intro it h
  cases it <;> simp_all [isTrivialItem, hasDefault]

theorem map_stripDefault_of_trivial :
    ∀ l : List TraitItem, l.all isTrivialItem = true → l.map stripDefault = l := by
  intro l hl
  induction l with
  | nil => rfl
  | cons x xs ih =>
    rw [List.all_cons, Bool.and_eq_true] at hl
    rw [List.map_cons, ih hl.2]
    have := hl.1
    cases x <;> simp_all [isTrivialItem, stripDefault]

theorem filterMap_toBindingItem_of_trivial :
    ∀ l : List TraitItem, l.all isTrivialItem = true →
      l.filterMap toBindingItem = [] := by
  intro l hl
  induction l with
  | nil => rfl
  | cons x xs ih =>
    rw [List.all_cons, Bool.and_eq_true] at hl
    have hx : toBindingItem x = none := by
      have := hl.1
      cases x <;> simp_all [isTrivialItem, toBindingItem]
    rw [List.filterMap_cons, hx, ih hl.2]

/-- Claim C10: on a well-parsed header and a trait block whose body is empty
or holds only macro-invocation / verbatim members, the transformation
succeeds, the declaration is the input trait block unchanged, and the
binding impl block has zero items. -/
theorem c10_trivial_block_pass_through :
    ∀ (first : List Tok) (header : ItemImplHeader) (tb : ItemTrait),
      parseItemImplHeader first = Except.ok header →
      tb.items.all isTrivialItem = true →
      blanket_trait first tb =
        Except.ok { decl := tb,
                    binding := { attrs := header.attrs, unsafety := header.unsafety,
                                 generics := header.generics,
                                 trait_path := header.path,
                                 self_ty := header.self_ty, items := [] } } := by
  intro first header tb hp htriv
  have hall : tb.items.all hasDefault = true := by
    rw [List.all_eq_true] at htriv ⊢
    exact fun x hx => hasDefault_of_trivial x (htriv x hx)
  unfold blanket_trait
  rw [hp, processItems_eq_of_all tb.items hall,
      map_stripDefault_of_trivial tb.items htriv,
      filterMap_toBindingItem_of_trivial tb.items htriv]

/-- Witness for C10 at the empty trait block. -/
theorem c10_trivial_block_pass_through_witness :
    blanket_trait hdrToksSimple tbEmpty =
      Except.ok { decl := tbEmpty,
                  binding := { attrs := egHeaderB.attrs,
                               unsafety := egHeaderB.unsafety,
                               generics := egHeaderB.generics,
                               trait_path := egHeaderB.path,
                               self_ty := egHeaderB.self_ty, items := [] } } :=
  c10_trivial_block_pass_through hdrToksSimple egHeaderB tbEmpty rfl rfl
